import Mathlib

/-!
Verification of the core of the `teoria-tridimensional-morfema` repository:
a shallow embedding of the dimension types (`ttm/core/dimensions.py`),
the `Morpheme` entity (`ttm/core/morpheme.py`), the spatial containers
(`ttm/core/space.py`) and the Arabic and Mandarin analyzers
(`ttm/analyzers/arabic.py`, `ttm/analyzers/mandarin.py`), together with
theorems settling the specification claims.

Python machine-level conventions mirrored here: Python integers are `Int`;
Python lists are Lean `List`s (append-ordered, as in CPython); `dict`s that
only serve as ordered key-value records are association lists in insertion
order (CPython 3.7+ semantics); float radii are exact rationals and
`math.sqrt` is `Real.sqrt`.  Fallible operations (`raise ValueError`,
`KeyError`) are `Except String`.
-/

namespace TTM

/-- Embeds `SemanticLevel` (`dimensions.py`): an `IntEnum` with the four
values LITERAL=1, ALLUSIVE=2, HOMILETIC=3, MYSTICAL=4. -/
inductive SemanticLevel where
  | LITERAL
  | ALLUSIVE
  | HOMILETIC
  | MYSTICAL
deriving DecidableEq, Repr

/-- The numeric value of a `SemanticLevel` (Python `level.value`). -/
def SemanticLevel.value : SemanticLevel → Int
  | .LITERAL => 1
  | .ALLUSIVE => 2
  | .HOMILETIC => 3
  | .MYSTICAL => 4

/-- The member name of a `SemanticLevel` (Python `level.name`). -/
def SemanticLevel.levelName : SemanticLevel → String
  | .LITERAL => "LITERAL"
  | .ALLUSIVE => "ALLUSIVE"
  | .HOMILETIC => "HOMILETIC"
  | .MYSTICAL => "MYSTICAL"

/-- Embeds the `SemanticLevel(intvalue)` enum constructor call, which raises
`ValueError` on an integer outside 1..4. -/
def SemanticLevel.ofInt : Int → Except String SemanticLevel
  | 1 => .ok .LITERAL
  | 2 => .ok .ALLUSIVE
  | 3 => .ok .HOMILETIC
  | 4 => .ok .MYSTICAL
  | _ => .error "ValueError: not a valid SemanticLevel"

/-- Embeds `SemanticLayer` (`dimensions.py`). -/
structure SemanticLayer where
  level : SemanticLevel
  meaning : String
  tradition : String := ""
  source : String := ""
deriving DecidableEq, Repr

/-- Embeds `Diacritic` (`dimensions.py`). -/
structure Diacritic where
  symbol : String
  name : String
  position : String := "above"
  function : String := "vowel"
deriving DecidableEq, Repr

/-- Embeds `Width` (`dimensions.py`): the combinatorial-derivational X axis. -/
structure Width where
  root : String := ""
  prefixes : List String := []
  suffixes : List String := []
  pattern : String := ""
  derivation_degree : Int := 0
  syntagmatic_context : String := ""
  possible_derivations : List String := []
deriving DecidableEq, Repr

/-- Embeds the `Width.position` property: the derivation degree. -/
def Width.position (w : Width) : Int := w.derivation_degree

/-- Embeds the `Width.full_form` property:
`"".join(prefixes) + root + "".join(suffixes)`. -/
def Width.full_form (w : Width) : String :=
  String.join w.prefixes ++ w.root ++ String.join w.suffixes

/-- Embeds `Width.add_prefix` (renamed here): appends the affix and
increments the derivation degree by one. -/
def Width.add_prefix_op (w : Width) (p : String) : Width :=
  { w with prefixes := w.prefixes ++ [p],
           derivation_degree := w.derivation_degree + 1 }

/-- Embeds `Width.add_suffix` (renamed here): appends the affix and
increments the derivation degree by one. -/
def Width.add_suffix_op (w : Width) (s : String) : Width :=
  { w with suffixes := w.suffixes ++ [s],
           derivation_degree := w.derivation_degree + 1 }

/-- Embeds `Depth` (`dimensions.py`): the hermeneutic-semantic Y axis. -/
structure Depth where
  levels : List SemanticLayer := []
  current_level : Int := 1
  semantic_field : String := ""
  polysemy_type : String := "regular"
deriving DecidableEq, Repr

/-- Embeds the `Depth.level` property: the current level. -/
def Depth.level (d : Depth) : Int := d.current_level

/-- Embeds `Depth.add_layer`: appends a layer unconditionally. -/
def Depth.add_layer (d : Depth) (level : SemanticLevel) (meaning : String)
    (tradition : String := "") (source : String := "") : Depth :=
  { d with levels := d.levels ++ [⟨level, meaning, tradition, source⟩] }

/-- Embeds `Depth.get_layer`: first layer with the given level, if any. -/
def Depth.get_layer (d : Depth) (level : SemanticLevel) : Option SemanticLayer :=
  d.levels.find? (fun layer => layer.level == level)

/-- Embeds `Height` (`dimensions.py`): the suprasegmental-graphical Z axis. -/
structure Height where
  base_form : String := ""
  diacritics : List Diacritic := []
  vowels : List String := []
  cantillation : List String := []
  configuration_id : Int := 0
  alternative_vocalizations : List String := []
deriving DecidableEq, Repr

/-- Embeds the `Height.configuration` property. -/
def Height.configuration (h : Height) : Int := h.configuration_id

/-- Embeds the `Height.has_vocalization` property. -/
def Height.has_vocalization (h : Height) : Bool :=
  h.diacritics.length > 0 || h.vowels.length > 0

/-- Embeds `Height.add_diacritic`: appends a mark. -/
def Height.add_diacritic (h : Height) (symbol name : String)
    (position : String := "above") (function : String := "vowel") : Height :=
  { h with diacritics := h.diacritics ++ [⟨symbol, name, position, function⟩] }

/-- Python `Dict[str, Any]` metadata, modelled as an insertion-ordered
association list with string leaves. -/
abbrev Metadata := List (String × String)

/-- Embeds `Morpheme` (`morpheme.py`): identity fields plus one instance of
each dimension. -/
structure Morpheme where
  form : String
  root : String
  language : String := ""
  gloss : String := ""
  x : Width := {}
  y : Depth := {}
  z : Height := {}
  metadata : Metadata := []
deriving DecidableEq, Repr

/-- Embeds the `Morpheme.coordinates` property:
`(x.position, y.level, z.configuration)`. -/
def Morpheme.coordinates (m : Morpheme) : Int × Int × Int :=
  (m.x.position, m.y.level, m.z.configuration)

/-- The squared Euclidean distance between the coordinate triples of two
morphemes (the exact integer under the square root in
`Morpheme.distance_to`). -/
def Morpheme.distSq (a b : Morpheme) : Int :=
  (a.coordinates.1 - b.coordinates.1) ^ 2 +
  (a.coordinates.2.1 - b.coordinates.2.1) ^ 2 +
  (a.coordinates.2.2 - b.coordinates.2.2) ^ 2

/-- Embeds `Morpheme.distance_to`: the Euclidean distance
`sqrt(Σ (Δi)^2)` over the two coordinate triples. -/
noncomputable def Morpheme.distance_to (a b : Morpheme) : ℝ :=
  Real.sqrt (Morpheme.distSq a b : ℝ)

/-- Embeds `Morpheme.translate_along_x`: builds a copied `Width`, applies
`add_prefix` when the prefix argument is non-empty (Python truthiness) and
`add_suffix` when the suffix argument is non-empty, and returns a fresh
morpheme whose form is the new width's `full_form`, with deep copies of
`Depth` and `Height` carrying over. -/
def Morpheme.translate_along_x (m : Morpheme) (pre : String := "")
    (suf : String := "") : Morpheme :=
  let w0 : Width :=
    { root := if m.x.root = "" then m.root else m.x.root,
      prefixes := m.x.prefixes,
      suffixes := m.x.suffixes,
      pattern := m.x.pattern,
      derivation_degree := m.x.derivation_degree }
  let w1 := if pre = "" then w0 else w0.add_prefix_op pre
  let w2 := if suf = "" then w1 else w1.add_suffix_op suf
  { form := w2.full_form,
    root := m.root,
    language := m.language,
    gloss := m.gloss,
    x := w2,
    y := { levels := m.y.levels, current_level := m.y.current_level,
           semantic_field := m.y.semantic_field },
    z := { base_form := m.z.base_form, diacritics := m.z.diacritics,
           vowels := m.z.vowels, configuration_id := m.z.configuration_id } }

/-- Embeds `Morpheme.translate_along_y`: same form, new `Depth` focused on
the target level. -/
def Morpheme.translate_along_y (m : Morpheme) (level : SemanticLevel) : Morpheme :=
  { form := m.form, root := m.root, language := m.language, gloss := m.gloss,
    x := m.x,
    y := { levels := m.y.levels, current_level := level.value,
           semantic_field := m.y.semantic_field },
    z := m.z }

/-- Embeds `Morpheme.translate_along_z`: resets `Height` to the base form
(or the old surface form) with the new configuration id, dropping
diacritics and vowels. -/
def Morpheme.translate_along_z (m : Morpheme) (vocalization : String)
    (config_id : Int) : Morpheme :=
  { form := vocalization, root := m.root, language := m.language,
    gloss := m.gloss, x := m.x, y := m.y,
    z := { base_form := if m.z.base_form = "" then m.form else m.z.base_form,
           configuration_id := config_id } }

/-- A Python object reference to a `Morpheme`: the object identity `oid`
(Python `id()`) together with the morpheme value.  `find_nearest` excludes
by identity (`is not`), while `list.remove` compares dataclass values. -/
structure Obj where
  oid : Nat
  val : Morpheme
deriving DecidableEq, Repr

/-- Embeds `MorphemeSpace` (`space.py`): an insertion-ordered list of
member objects plus advisory axis extents. -/
structure MorphemeSpace where
  morphemes : List Obj := []
  max_x : Int := 10
  max_y : Int := 4
  max_z : Int := 20
deriving DecidableEq, Repr

/-- Embeds `MorphemeSpace.add_morpheme`: unconditional append. -/
def MorphemeSpace.add_morpheme (s : MorphemeSpace) (o : Obj) : MorphemeSpace :=
  { s with morphemes := s.morphemes ++ [o] }

/-- Embeds CPython `list.remove(x)`: drops the first element whose value
equals `x` (dataclass `==`), leaving the list unchanged when absent. -/
def removeFirstVal : List Obj → Morpheme → List Obj
  | [], _ => []
  | o :: rest, m => if o.val = m then rest else o :: removeFirstVal rest m

/-- Embeds `MorphemeSpace.remove_morpheme`: the updated space and whether an
element was actually removed. -/
def MorphemeSpace.remove_morpheme (s : MorphemeSpace) (m : Morpheme) :
    MorphemeSpace × Bool :=
  ({ s with morphemes := removeFirstVal s.morphemes m },
   s.morphemes.any (fun o => o.val == m))

/-- The squared Euclidean distance between two integer coordinate
triples (the exact integer under the square root in
`get_morphemes_in_range`). -/
def coordDistSq (a b : Int × Int × Int) : Int :=
  (a.1 - b.1) ^ 2 + (a.2.1 - b.2.1) ^ 2 + (a.2.2 - b.2.2) ^ 2

/-- The comparison `math.sqrt(d) <= radius` for an integer squared distance
`d` and an exact rational radius, in the executable squared form; the lemma
`inRadius_iff_sqrt` identifies it with the real square-root comparison that
the Python code performs. -/
def inRadius (d : Int) (r : ℚ) : Bool :=
  decide (0 ≤ r ∧ (d : ℚ) ≤ r ^ 2)

/-- Embeds `MorphemeSpace.get_morphemes_in_range`: all members whose
Euclidean distance to `center` is `≤ radius` (inclusive). -/
def MorphemeSpace.get_morphemes_in_range (s : MorphemeSpace)
    (center : Int × Int × Int) (radius : ℚ) : List Obj :=
  s.morphemes.filter (fun o => inRadius (coordDistSq o.val.coordinates center) radius)

/-- The sort relation used by `find_nearest`: compare entries by their
stored distance key (`key=lambda x: x[1]`). -/
def distKeyLe (a b : Obj × Int) : Prop := a.2 ≤ b.2

instance : DecidableRel distKeyLe :=
  fun a b => inferInstanceAs (Decidable (a.2 ≤ b.2))

instance : IsTotal (Obj × Int) distKeyLe :=
  ⟨fun a b => le_total a.2 b.2⟩

instance : IsTrans (Obj × Int) distKeyLe :=
  ⟨fun _ _ _ h h' => le_trans h h'⟩

/-- Embeds `MorphemeSpace.find_nearest`: pair every member other than the
query object (identity comparison `is not`) with its distance to the query,
stable-sort ascending by the distance key (CPython `list.sort` is stable),
and keep the first `k`.  The stored key is the exact squared distance; the
Python float is its square root, an order-isomorphic key. -/
def MorphemeSpace.find_nearest (s : MorphemeSpace) (q : Obj) (k : Nat) :
    List (Obj × Int) :=
  let distances := (s.morphemes.filter (fun o => o.oid != q.oid)).map
    (fun o => (o, q.val.distSq o.val))
  (distances.insertionSort distKeyLe).take k

/-- Embeds `MorphemeSpace.compute_density`: zero for a non-positive radius,
otherwise the in-range count divided by the sphere volume. -/
noncomputable def MorphemeSpace.compute_density (s : MorphemeSpace)
    (center : Int × Int × Int) (radius : ℚ) : ℝ :=
  if radius ≤ 0 then 0
  else ((s.get_morphemes_in_range center radius).length : ℝ) /
    ((4 / 3) * Real.pi * (radius : ℝ) ^ 3)

/-- The number of members whose real Euclidean distance to `center` is
`≤ radius`.  Stated from the spec's words ("members whose Euclidean distance
to `center` is ≤ `radius`") to compare against the executable
`get_morphemes_in_range`. -/
noncomputable def spec_countWithinRadius (s : MorphemeSpace)
    (center : Int × Int × Int) (radius : ℝ) : ℕ :=
  (s.morphemes.filter (fun o =>
    @decide (Real.sqrt ((coordDistSq o.val.coordinates center : Int) : ℝ) ≤ radius)
      (Classical.propDecidable _))).length

/-- Embeds `RootSpace` (`space.py`): fixes `root` and `language`; the
constructor takes an optional initial member list, unvalidated. -/
structure RootSpace where
  root : String
  language : String := ""
  morphemes : List Obj := []
deriving DecidableEq, Repr

/-- Embeds `RootSpace.add_morpheme`: raises `ValueError` when the
argument's root differs from the space's root, otherwise appends. -/
def RootSpace.add_morpheme (s : RootSpace) (o : Obj) : Except String RootSpace :=
  if o.val.root ≠ s.root then
    .error ("Morpheme root '" ++ o.val.root ++ "' doesn't match space root '"
      ++ s.root ++ "'")
  else
    .ok { s with morphemes := s.morphemes ++ [o] }

/-- Embeds the inherited `remove_morpheme` on a `RootSpace`. -/
def RootSpace.remove_morpheme (s : RootSpace) (m : Morpheme) :
    RootSpace × Bool :=
  ({ s with morphemes := removeFirstVal s.morphemes m },
   s.morphemes.any (fun o => o.val == m))

/-- One public mutation step on a `RootSpace`: a successful `add_morpheme`
(a failing add raises and leaves the space unchanged) or a
`remove_morpheme` call. -/
inductive RootSpaceStep : RootSpace → RootSpace → Prop where
  | add (s : RootSpace) (o : Obj) (s' : RootSpace)
      (h : s.add_morpheme o = .ok s') : RootSpaceStep s s'
  | rem (s : RootSpace) (m : Morpheme) :
      RootSpaceStep s (s.remove_morpheme m).1

/-! ### Serialization (`Morpheme.to_dict` / `Morpheme.from_dict`) -/

/-- The `"width"` block of a serialized morpheme (all entries optional,
read with `dict.get` defaults in `from_dict`). -/
structure WidthDict where
  root : Option String := none
  prefixes : Option (List String) := none
  suffixes : Option (List String) := none
  pattern : Option String := none
  derivation_degree : Option Int := none
deriving DecidableEq, Repr

/-- One entry of the `"levels"` list: `level` and `meaning` are accessed
with mandatory indexing in `from_dict`, `tradition` with a default. -/
structure LayerDict where
  level : Int
  level_name : Option String := none
  meaning : String
  tradition : Option String := none
deriving DecidableEq, Repr

/-- The `"depth"` block of a serialized morpheme. -/
structure DepthDict where
  current_level : Option Int := none
  semantic_field : Option String := none
  levels : Option (List LayerDict) := none
deriving DecidableEq, Repr

/-- One entry of the `"diacritics"` list: `symbol` and `name` mandatory,
`position` defaulted. -/
structure DiacriticDict where
  symbol : String
  name : String
  position : Option String := none
deriving DecidableEq, Repr

/-- The `"height"` block of a serialized morpheme. -/
structure HeightDict where
  base_form : Option String := none
  configuration_id : Option Int := none
  vowels : Option (List String) := none
  diacritics : Option (List DiacriticDict) := none
deriving DecidableEq, Repr

/-- A serialized morpheme dictionary.  A field is `none` exactly when its
key is absent from the Python `dict`. -/
structure MorphemeDict where
  form : Option String := none
  root : Option String := none
  language : Option String := none
  gloss : Option String := none
  coordinates : Option (List Int) := none
  width : Option WidthDict := none
  depth : Option DepthDict := none
  height : Option HeightDict := none
  metadata : Option Metadata := none
deriving DecidableEq, Repr

/-- Embeds `Morpheme.to_dict`: every key is written. -/
def Morpheme.to_dict (m : Morpheme) : MorphemeDict :=
  { form := some m.form,
    root := some m.root,
    language := some m.language,
    gloss := some m.gloss,
    coordinates := some [m.coordinates.1, m.coordinates.2.1, m.coordinates.2.2],
    width := some
      { root := some m.x.root,
        prefixes := some m.x.prefixes,
        suffixes := some m.x.suffixes,
        pattern := some m.x.pattern,
        derivation_degree := some m.x.derivation_degree },
    depth := some
      { current_level := some m.y.current_level,
        semantic_field := some m.y.semantic_field,
        levels := some (m.y.levels.map (fun layer =>
          { level := layer.level.value,
            level_name := some layer.level.levelName,
            meaning := layer.meaning,
            tradition := some layer.tradition })) },
    height := some
      { base_form := some m.z.base_form,
        configuration_id := some m.z.configuration_id,
        vowels := some m.z.vowels,
        diacritics := some (m.z.diacritics.map (fun d =>
          { symbol := d.symbol, name := d.name, position := some d.position })) },
    metadata := some m.metadata }

/-- The `from_dict` loop rebuilding `Depth` layers via `add_layer`; the
`SemanticLevel(...)` conversion raises on an out-of-range level value. -/
def buildLayers (d : Depth) : List LayerDict → Except String Depth
  | [] => .ok d
  | ld :: rest =>
    match SemanticLevel.ofInt ld.level with
    | .error e => .error e
    | .ok lvl => buildLayers (d.add_layer lvl ld.meaning (ld.tradition.getD "")) rest

/-- Embeds `Morpheme.from_dict`: optional blocks default, `Depth` layers
are replayed through `add_layer`, `Height` diacritics through
`add_diacritic`, and the mandatory `data["form"]` / `data["root"]`
accesses raise `KeyError` when absent. -/
def Morpheme.from_dict (data : MorphemeDict) : Except String Morpheme :=
  let width_data := data.width.getD {}
  let depth_data := data.depth.getD {}
  let height_data := data.height.getD {}
  let width : Width :=
    { root := width_data.root.getD "",
      prefixes := width_data.prefixes.getD [],
      suffixes := width_data.suffixes.getD [],
      pattern := width_data.pattern.getD "",
      derivation_degree := width_data.derivation_degree.getD 0 }
  match buildLayers
      { current_level := depth_data.current_level.getD 1,
        semantic_field := depth_data.semantic_field.getD "" }
      (depth_data.levels.getD []) with
  | .error e => .error e
  | .ok depth =>
    let height0 : Height :=
      { base_form := height_data.base_form.getD "",
        configuration_id := height_data.configuration_id.getD 0,
        vowels := height_data.vowels.getD [] }
    let height := (height_data.diacritics.getD []).foldl
      (fun h dd => h.add_diacritic dd.symbol dd.name (dd.position.getD "above")) height0
    match data.form with
    | none => .error "KeyError: form"
    | some form =>
      match data.root with
      | none => .error "KeyError: root"
      | some root =>
        .ok { form := form, root := root,
              language := data.language.getD "",
              gloss := data.gloss.getD "",
              x := width, y := depth, z := height,
              metadata := data.metadata.getD [] }

/-! ### Arabic analyzer (`analyzers/arabic.py`) -/

/-- Membership in the `ARABIC_DIACRITICS` regex character class
`[ؐ-ًؚ-ٰٟۖ-ۜ۟-۪ۤۧۨ-ۭ]`. -/
def isArabicDiacritic (c : Char) : Bool :=
  (0x610 ≤ c.toNat && c.toNat ≤ 0x61A) ||
  (0x64B ≤ c.toNat && c.toNat ≤ 0x65F) ||
  c.toNat == 0x670 ||
  (0x6D6 ≤ c.toNat && c.toNat ≤ 0x6DC) ||
  (0x6DF ≤ c.toNat && c.toNat ≤ 0x6E4) ||
  c.toNat == 0x6E7 || c.toNat == 0x6E8 ||
  (0x6EA ≤ c.toNat && c.toNat ≤ 0x6ED)

/-- Embeds `strip_diacritics`: removes every diacritic character. -/
def strip_diacritics (s : String) : String :=
  ⟨s.data.filter (fun c => !isArabicDiacritic c)⟩

/-- Embeds `extract_diacritics` (`findall`): the diacritic characters of
the text, in order, as one-character strings. -/
def extract_diacritics (s : String) : List String :=
  (s.data.filter isArabicDiacritic).map Char.toString

/-- The root normalization in `analyze_root`:
`root.replace("-", "").replace(" ", "")`. -/
def normalizeRoot (root : String) : String :=
  ⟨root.data.filter (fun c => !(c == '-' || c == ' '))⟩

/-- The display root in `analyze_root`:
`"-".join(normalized) if "-" not in root else root`. -/
def displayRoot (root : String) : String :=
  if root.data.contains '-' then root
  else String.intercalate "-" ((normalizeRoot root).data.map Char.toString)

/-- One reference-dataset entry: a semantic-field string and an ordered
`examples` mapping from vocalized surface form to gloss. -/
structure RootInfo where
  semantic_field : String := ""
  examples : List (String × String) := []
deriving DecidableEq, Repr

/-- The analyzer's loaded reference dataset: an ordered mapping from
canonical hyphenated root to its `RootInfo`. -/
abbrev RootsData := List (String × RootInfo)

/-- The `for form_text, gloss in examples.items()` loop of
`ArabicAnalyzer.analyze_root`: builds one morpheme per example (the
`config_id` counter is incremented before use) and adds it to the space
through `RootSpace.add_morpheme`. -/
def analyzeRootLoop (display semantic_field normalized : String) :
    List (String × String) → Int → RootSpace → Except String RootSpace
  | [], _, space => .ok space
  | (form_text, gloss) :: rest, config_id, space =>
    let cid := config_id + 1
    let stripped := strip_diacritics form_text
    let diacritics_found := extract_diacritics form_text
    let width : Width :=
      { root := display,
        derivation_degree := if stripped = normalized then 0 else 1 }
    let depth : Depth :=
      ({ semantic_field := semantic_field } : Depth).add_layer .LITERAL gloss
    let height : Height :=
      { base_form := stripped, configuration_id := cid, vowels := diacritics_found }
    let m : Morpheme :=
      { form := form_text, root := display, language := "ar", gloss := gloss,
        x := width, y := depth, z := height }
    match space.add_morpheme ⟨cid.toNat, m⟩ with
    | .error e => .error e
    | .ok space' => analyzeRootLoop display semantic_field normalized rest cid space'

/-- Embeds `ArabicAnalyzer.analyze_root`, parametrized by the loaded
reference dataset `_roots_data`: normalizes the root, looks up its entry
(defaulting to an empty one) and folds the example loop over a fresh
`RootSpace`. -/
def ArabicAnalyzer.analyze_root (data : RootsData) (root : String) :
    Except String RootSpace :=
  let normalized := normalizeRoot root
  let display := displayRoot root
  let info := ((data.find? (fun p => p.1 == display)).map Prod.snd).getD {}
  analyzeRootLoop display info.semantic_field normalized info.examples 0
    ⟨display, "ar", []⟩

/-- The reference dataset of the spec's Arabic scenario: root `ك-ت-ب`
with examples `كَتَبَ` ("he wrote") and `كِتَاب` ("book"). -/
def ktbData : RootsData :=
  [("ك-ت-ب",
    { semantic_field := "writing",
      examples := [("كَتَبَ", "he wrote"), ("كِتَاب", "book")] })]

/-! ### Mandarin analyzer (`analyzers/mandarin.py`) -/

/-- Embeds the `PINYIN_TONES` mapping from tone-marked vowels to tone
numbers. -/
def PINYIN_TONES : List (Char × Int) :=
  [('ā', 1), ('ē', 1), ('ī', 1), ('ō', 1), ('ū', 1), ('ǖ', 1),
   ('á', 2), ('é', 2), ('í', 2), ('ó', 2), ('ú', 2), ('ǘ', 2),
   ('ǎ', 3), ('ě', 3), ('ǐ', 3), ('ǒ', 3), ('ǔ', 3), ('ǚ', 3),
   ('à', 4), ('è', 4), ('ì', 4), ('ò', 4), ('ù', 4), ('ǜ', 4)]

/-- The `char in PINYIN_TONES` lookup. -/
def toneOf (c : Char) : Option Int :=
  (PINYIN_TONES.find? (fun p => p.1 == c)).map Prod.snd

/-- Embeds `MandarinAnalyzer._extract_tones`: the tone numbers of the
tone-marked characters in order; a non-empty pinyin with no marks yields
the singleton neutral tone `[5]`. -/
def MandarinAnalyzer.extract_tones (pinyin : String) : List Int :=
  let tones := pinyin.data.filterMap toneOf
  if tones.isEmpty && !(pinyin == "") then [5] else tones

/-- Embeds `MandarinAnalyzer.parse_morpheme`: Width holds the form as its
own root, Height's configuration id is `tones[0] if tones else 5`. -/
def MandarinAnalyzer.parse_morpheme (form : String) (pinyin : String := "") :
    Morpheme :=
  let width : Width := { root := form }
  let tones := MandarinAnalyzer.extract_tones pinyin
  let height : Height := { base_form := pinyin, configuration_id := tones.headD 5 }
  { form := form, root := form, language := "zh",
    x := width, y := {}, z := height }

/-! ### Concrete fixtures used by counterexamples and witnesses -/

/-- A `RootSpace` built through the public constructor with an initial
member whose root differs from the space's fixed root (the constructor
performs no validation). -/
def badRootSpace : RootSpace :=
  { root := "R", language := "", morphemes := [⟨0, { form := "f", root := "S" }⟩] }

/-- An empty `RootSpace` with root `"R"`. -/
def rsEmptyR : RootSpace := { root := "R" }

/-- A morpheme object whose root is `"R"`. -/
def objR : Obj := ⟨1, { form := "f", root := "R" }⟩

/-- `rsEmptyR` after successfully adding `objR`. -/
def rsOneR : RootSpace := { root := "R", language := "", morphemes := [objR] }

/-- A space whose member list holds the same object (same `oid`) twice, as
produced by calling `add_morpheme` twice with one object. -/
def dupSpace : MorphemeSpace :=
  { morphemes := [⟨0, { form := "a", root := "r" }⟩, ⟨0, { form := "a", root := "r" }⟩] }

/-- The duplicated query object of `dupSpace`. -/
def dupQuery : Obj := ⟨0, { form := "a", root := "r" }⟩

/-- A two-member space with distinct object identities. -/
def twoSpace : MorphemeSpace :=
  { morphemes := [⟨0, { form := "a", root := "r" }⟩,
                  ⟨1, { form := "b", root := "r", x := { derivation_degree := 2 } }⟩] }

/-- The first member of `twoSpace`, used as a query. -/
def twoQuery : Obj := ⟨0, { form := "a", root := "r" }⟩

/-- A one-root, one-example reference dataset over the single letter `ر`. -/
def raaData : RootsData := [("ر", { examples := [("ر", "g")] })]

/-- The morpheme `analyze_root raaData "ر"` produces. -/
def raaMorpheme : Morpheme :=
  { form := "ر", root := "ر", language := "ar", gloss := "g",
    x := { root := "ر", derivation_degree := 0 },
    y := { levels := [⟨.LITERAL, "g", "", ""⟩], semantic_field := "" },
    z := { base_form := "ر", configuration_id := 1, vowels := [] } }

/-- The space `analyze_root raaData "ر"` produces. -/
def raaSpace : RootSpace :=
  { root := "ر", language := "ar", morphemes := [⟨1, raaMorpheme⟩] }

/-! ### Theorems -/

/-- Claim C5: starting from `Width(root=R)`, `add_prefix(p)` then
`add_suffix(s)` yields derivation degree 2 and `full_form == p + R + s`;
and for every morpheme, `translate_along_x` with both affixes non-empty
returns a morpheme whose Width degree is the original degree plus 2 and
whose surface form is the new Width's `full_form`.  (The original morpheme
is unchanged by construction: the operation builds a fresh value.) -/
theorem claim_C5_translate_x :
    (∀ R p s : String,
      ((({ root := R } : Width).add_prefix_op p).add_suffix_op s).derivation_degree = 2 ∧
      ((({ root := R } : Width).add_prefix_op p).add_suffix_op s).full_form = p ++ R ++ s) ∧
    (∀ (m : Morpheme) (pre suf : String), pre ≠ "" → suf ≠ "" →
      (m.translate_along_x pre suf).x.derivation_degree = m.x.derivation_degree + 2 ∧
      (m.translate_along_x pre suf).form = (m.translate_along_x pre suf).x.full_form) := by
  constructor
  · intro R p s
    constructor
    · rfl
    · show String.join [p] ++ R ++ String.join [s] = p ++ R ++ s
      simp [String.join]
  · intro m pre suf hpre hsuf
    constructor
    · show (Morpheme.translate_along_x m pre suf).x.derivation_degree =
        m.x.derivation_degree + 2
      simp only [Morpheme.translate_along_x, if_neg hpre, if_neg hsuf,
        Width.add_prefix_op, Width.add_suffix_op]
      ring
    · simp only [Morpheme.translate_along_x, if_neg hpre, if_neg hsuf]

/-- Witness for C5 at a concrete morpheme and non-empty affixes. -/
theorem claim_C5_witness :
    ("a" : String) ≠ "" ∧ ("b" : String) ≠ "" ∧
    ((({ form := "f", root := "r" } : Morpheme).translate_along_x "a" "b").x.derivation_degree =
      ({ form := "f", root := "r" } : Morpheme).x.derivation_degree + 2) :=
  ⟨by decide, by decide,
    (claim_C5_translate_x.2 { form := "f", root := "r" } "a" "b"
      (by decide) (by decide)).1⟩

/-- Claim C3: `RootSpace.add_morpheme` fails (raises `ValueError`) exactly
when the argument's root differs from the space's root; a successful add
appends the argument, so the length grows by exactly 1 and the space's
root is unchanged.  In the exception model the failing branch constructs
no new space, i.e. membership is unchanged on error. -/
theorem claim_C3_rootspace_add :
    ∀ (s : RootSpace) (o : Obj),
      ((s.add_morpheme o).toOption = none ↔ o.val.root ≠ s.root) ∧
      (∀ s', s.add_morpheme o = .ok s' →
        s'.morphemes.length = s.morphemes.length + 1 ∧
        s'.morphemes = s.morphemes ++ [o] ∧ s'.root = s.root) := by
  intro s o
  by_cases h : o.val.root = s.root
  · refine ⟨?_, ?_⟩
    · simp [RootSpace.add_morpheme, h, Except.toOption]
    · intro s' hs'
      simp only [RootSpace.add_morpheme, h, ne_eq, not_true_eq_false,
        if_false, Except.ok.injEq] at hs'
      subst hs'
      simp
  · refine ⟨?_, ?_⟩
    · simp [RootSpace.add_morpheme, h, Except.toOption]
    · intro s' hs'
      simp [RootSpace.add_morpheme, h] at hs'

/-- Witness for C3: a successful concrete add (length 0 to 1) and a
failing concrete add (mismatched root). -/
theorem claim_C3_witness :
    (rsOneR.morphemes.length = rsEmptyR.morphemes.length + 1) ∧
    ((rsEmptyR.add_morpheme ⟨2, { form := "g", root := "S" }⟩).toOption = none) :=
  ⟨((claim_C3_rootspace_add rsEmptyR objR).2 rsOneR
      (by simp [RootSpace.add_morpheme, rsEmptyR, objR, rsOneR])).1,
   (claim_C3_rootspace_add rsEmptyR ⟨2, { form := "g", root := "S" }⟩).1.mpr
     (by decide)⟩

/-- Claim C8: `MandarinAnalyzer.parse_morpheme` sets Height's
configuration id to the tone number of the first tone-marked vowel of the
pinyin argument (via the `PINYIN_TONES` table), and to the neutral tone 5
when the pinyin is non-empty but has no tone mark; concretely,
`parse_morpheme "好" "hǎo"` yields 3 and `parse_morpheme "吗" "ma"`
yields 5. -/
theorem claim_C8_mandarin_tones :
    (∀ (form pinyin : String) (t : Int),
      (pinyin.data.filterMap toneOf).head? = some t →
      (MandarinAnalyzer.parse_morpheme form pinyin).z.configuration_id = t) ∧
    (∀ form pinyin : String, pinyin ≠ "" →
      pinyin.data.filterMap toneOf = [] →
      (MandarinAnalyzer.parse_morpheme form pinyin).z.configuration_id = 5) ∧
    (MandarinAnalyzer.parse_morpheme "好" "hǎo").z.configuration_id = 3 ∧
    (MandarinAnalyzer.parse_morpheme "吗" "ma").z.configuration_id = 5 := by
  refine ⟨?_, ?_, by decide, by decide⟩
  · intro form pinyin t ht
    simp only [MandarinAnalyzer.parse_morpheme, MandarinAnalyzer.extract_tones]
    rcases hl : pinyin.data.filterMap toneOf with _ | ⟨a, rest⟩
    · rw [hl] at ht; simp at ht
    · rw [hl] at ht
      simp only [List.head?_cons, Option.some.injEq] at ht
      simp [hl, ht]
  · intro form pinyin hne hl
    have hpb : (pinyin == "") = false := by
      simpa [beq_iff_eq] using hne
    simp [MandarinAnalyzer.parse_morpheme, MandarinAnalyzer.extract_tones, hl, hpb]

/-- Witness for C8 at the two spec scenarios, discharging the tone-mark
hypotheses concretely. -/
theorem claim_C8_witness :
    ((("hǎo" : String).data.filterMap toneOf).head? = some 3 ∧
      (MandarinAnalyzer.parse_morpheme "好" "hǎo").z.configuration_id = 3) ∧
    (("ma" : String) ≠ "" ∧ ("ma" : String).data.filterMap toneOf = [] ∧
      (MandarinAnalyzer.parse_morpheme "吗" "ma").z.configuration_id = 5) :=
  ⟨⟨by decide, claim_C8_mandarin_tones.1 "好" "hǎo" 3 (by decide)⟩,
   ⟨by decide, by decide, claim_C8_mandarin_tones.2.1 "吗" "ma" (by decide) (by decide)⟩⟩

/-- Claim C10: `parse_morpheme` with the default empty pinyin also
produces the neutral configuration id 5, and no morpheme produced by
`parse_morpheme` ever has Z coordinate 0. -/
theorem claim_C10_neutral_fallback :
    (∀ form : String,
      (MandarinAnalyzer.parse_morpheme form "").z.configuration_id = 5) ∧
    (∀ form pinyin : String,
      (MandarinAnalyzer.parse_morpheme form pinyin).coordinates.2.2 ≠ 0) := by
  have htone : ∀ (c : Char) (t : Int), toneOf c = some t → t ≠ 0 := by
    intro c t ht
    simp only [toneOf, Option.map_eq_some'] at ht
    obtain ⟨p, hp, rfl⟩ := ht
    have hmem := List.mem_of_find?_eq_some hp
    have : ∀ p ∈ PINYIN_TONES, p.2 ≠ 0 := by decide
    exact this p hmem
  constructor
  · intro form; rfl
  · intro form pinyin
    show (MandarinAnalyzer.parse_morpheme form pinyin).z.configuration_id ≠ 0
    simp only [MandarinAnalyzer.parse_morpheme, MandarinAnalyzer.extract_tones]
    rcases hl : pinyin.data.filterMap toneOf with _ | ⟨a, rest⟩
    · rcases hp : (pinyin == "") with _ | _
      · simp [hp]
      · simp [hp]
    · have ha : a ≠ 0 := by
        have : a ∈ pinyin.data.filterMap toneOf := by rw [hl]; exact List.mem_cons_self a rest
        obtain ⟨c, _, hc⟩ := List.mem_filterMap.mp this
        exact htone c a hc
      simp [hl, ha]

/-- Claim C6: `from_dict` on a dictionary holding only `form` and `root`
yields a morpheme with every omitted field at its zero value (empty
language, gloss and metadata; Width degree 0 with empty affix lists; Depth
current level 1 with no layers; Height configuration id 0 with no vowels
or diacritics), while a dictionary missing `form` or missing `root` is a
hard error. -/
theorem claim_C6_from_dict_defaults :
    (∀ f r : String,
      Morpheme.from_dict { form := some f, root := some r } =
        .ok { form := f, root := r, language := "", gloss := "",
              x := { root := "", prefixes := [], suffixes := [], pattern := "",
                     derivation_degree := 0 },
              y := { levels := [], current_level := 1, semantic_field := "" },
              z := { base_form := "", diacritics := [], vowels := [],
                     configuration_id := 0 },
              metadata := [] }) ∧
    (∀ d : MorphemeDict, d.form = none → (Morpheme.from_dict d).toOption = none) ∧
    (∀ d : MorphemeDict, d.root = none → (Morpheme.from_dict d).toOption = none) := by
  refine ⟨fun f r => rfl, ?_, ?_⟩
  · intro d h
    simp only [Morpheme.from_dict]
    cases hb : buildLayers
        { current_level := (d.depth.getD {}).current_level.getD 1,
          semantic_field := (d.depth.getD {}).semantic_field.getD "" }
        ((d.depth.getD {}).levels.getD []) with
    | error e => simp [Except.toOption]
    | ok dep => simp [h, Except.toOption]
  · intro d h
    simp only [Morpheme.from_dict]
    cases hb : buildLayers
        { current_level := (d.depth.getD {}).current_level.getD 1,
          semantic_field := (d.depth.getD {}).semantic_field.getD "" }
        ((d.depth.getD {}).levels.getD []) with
    | error e => simp [Except.toOption]
    | ok dep =>
      cases hf : d.form with
      | none => simp [Except.toOption]
      | some f => simp [h, Except.toOption]

/-- Witness for C6: concrete dictionaries missing `form` (resp. `root`)
are rejected. -/
theorem claim_C6_witness :
    (({ root := some "r" } : MorphemeDict).form = none ∧
      (Morpheme.from_dict { root := some "r" }).toOption = none) ∧
    (({ form := some "f" } : MorphemeDict).root = none ∧
      (Morpheme.from_dict { form := some "f" }).toOption = none) :=
  ⟨⟨rfl, claim_C6_from_dict_defaults.2.1 { root := some "r" } rfl⟩,
   ⟨rfl, claim_C6_from_dict_defaults.2.2 { form := some "f" } rfl⟩⟩

/-- Claim C2 counterexample: the `RootSpace` constructor accepts an
initial member list without validating roots, so a space constructed with
a mismatched member violates "every member's root equals the space's
root". -/
theorem claim_C2_counterexample :
    badRootSpace.morphemes.all (fun o => o.val.root == badRootSpace.root) = false := by
  decide

/-- Removal yields a subset of the original members. -/
theorem mem_removeFirstVal {l : List Obj} {x : Morpheme} {o : Obj}
    (ho : o ∈ removeFirstVal l x) : o ∈ l := by
  induction l with
  | nil => simp [removeFirstVal] at ho
  | cons b rest ihl =>
    simp only [removeFirstVal] at ho
    by_cases hb : b.val = x
    · rw [if_pos hb] at ho
      exact List.mem_cons_of_mem b ho
    · rw [if_neg hb] at ho
      rcases List.mem_cons.mp ho with rfl | ho
      · exact List.mem_cons_self o rest
      · exact List.mem_cons_of_mem b (ihl ho)

/-- One public mutation step keeps the root fixed and preserves the
all-members-share-the-root invariant. -/
theorem rootSpaceStep_preserves {a b : RootSpace} (step : RootSpaceStep a b)
    (ha : ∀ o ∈ a.morphemes, o.val.root = a.root) :
    b.root = a.root ∧ ∀ o ∈ b.morphemes, o.val.root = b.root := by
  cases step with
  | add o s' hadd =>
    by_cases h : o.val.root = a.root
    · simp only [RootSpace.add_morpheme, h, ne_eq, not_true_eq_false,
        if_false, Except.ok.injEq] at hadd
      subst hadd
      refine ⟨rfl, ?_⟩
      intro p hp
      rcases List.mem_append.mp hp with hp | hp
      · exact ha p hp
      · rcases List.mem_singleton.mp hp with rfl
        exact h
    · simp [RootSpace.add_morpheme, h] at hadd
  | rem m =>
    refine ⟨rfl, ?_⟩
    intro p hp
    exact ha p (mem_removeFirstVal hp)

/-- Claim C2 (amended): for every `RootSpace` whose construction-time
members all share its root, every space reachable through the public
mutators (`add_morpheme`, which alone can fail and then changes nothing,
and `remove_morpheme`) keeps the fixed root and has every member's root
equal to it. -/
theorem claim_C2_root_invariant :
    ∀ s₀ s : RootSpace,
      (∀ o ∈ s₀.morphemes, o.val.root = s₀.root) →
      Relation.ReflTransGen RootSpaceStep s₀ s →
      s.root = s₀.root ∧ ∀ o ∈ s.morphemes, o.val.root = s.root := by
  intro s₀ s h₀ hreach
  induction hreach with
  | refl => exact ⟨rfl, h₀⟩
  | tail _ step ih =>
    obtain ⟨ihroot, ihmem⟩ := ih
    obtain ⟨hr, hm⟩ := rootSpaceStep_preserves step ihmem
    exact ⟨hr.trans ihroot, hm⟩

/-- Witness for C2 at a concrete one-step chain: start from the empty
root space for `"R"`, add one matching morpheme. -/
theorem claim_C2_witness : rsOneR.root = rsEmptyR.root :=
  (claim_C2_root_invariant rsEmptyR rsOneR (by simp [rsEmptyR])
    (Relation.ReflTransGen.single (RootSpaceStep.add rsEmptyR objR rsOneR
      (by simp [RootSpace.add_morpheme, rsEmptyR, objR, rsOneR])))).1

/-- Converting the numeric value of a semantic level back through the enum
constructor recovers the level. -/
theorem SemanticLevel.ofInt_value (l : SemanticLevel) :
    SemanticLevel.ofInt l.value = .ok l := by
  cases l <;> rfl

/-- Replaying serialized layers through `buildLayers` succeeds and folds
`add_layer` over the original layers (sources are dropped by `to_dict`). -/
theorem buildLayers_map (layers : List SemanticLayer) (d : Depth) :
    buildLayers d (layers.map (fun layer =>
      ({ level := layer.level.value, level_name := some layer.level.levelName,
         meaning := layer.meaning, tradition := some layer.tradition } : LayerDict))) =
    .ok (layers.foldl
      (fun acc layer => acc.add_layer layer.level layer.meaning layer.tradition) d) := by
  induction layers generalizing d with
  | nil => rfl
  | cons layer rest ih =>
    simp only [List.map_cons, buildLayers, SemanticLevel.ofInt_value, List.foldl_cons]
    exact ih _

/-- Folding `add_layer` never changes the current level. -/
theorem current_level_foldl (layers : List SemanticLayer) (d : Depth) :
    (layers.foldl
      (fun acc layer => acc.add_layer layer.level layer.meaning layer.tradition)
      d).current_level = d.current_level := by
  induction layers generalizing d with
  | nil => rfl
  | cons layer rest ih => exact ih _

/-- Folding `add_diacritic` never changes the configuration id. -/
theorem configuration_id_foldl (dds : List DiacriticDict) (h0 : Height) :
    (dds.foldl
      (fun h dd => h.add_diacritic dd.symbol dd.name (dd.position.getD "above"))
      h0).configuration_id = h0.configuration_id := by
  induction dds generalizing h0 with
  | nil => rfl
  | cons dd rest ih => exact ih _

/-- Claim C1: `from_dict (to_dict m)` succeeds and returns a morpheme with
identical form, root, language, gloss and coordinates; the coordinate
triple is recomputed from the deserialized dimension state, not read from
the stored `"coordinates"` entry — replacing that entry by anything leaves
the result unchanged. -/
theorem claim_C1_roundtrip :
    ∀ m : Morpheme, ∃ m' : Morpheme,
      Morpheme.from_dict m.to_dict = .ok m' ∧
      m'.form = m.form ∧ m'.root = m.root ∧ m'.language = m.language ∧
      m'.gloss = m.gloss ∧ m'.coordinates = m.coordinates ∧
      ∀ c : Option (List Int),
        Morpheme.from_dict { m.to_dict with coordinates := c } = .ok m' := by
  intro m
  have hupdate : ∀ (d : MorphemeDict) (c : Option (List Int)),
      Morpheme.from_dict { d with coordinates := c } = Morpheme.from_dict d :=
    fun d c => rfl
  refine ⟨{ form := m.form, root := m.root, language := m.language,
            gloss := m.gloss,
            x := { root := m.x.root, prefixes := m.x.prefixes,
                   suffixes := m.x.suffixes, pattern := m.x.pattern,
                   derivation_degree := m.x.derivation_degree },
            y := m.y.levels.foldl
              (fun acc layer => acc.add_layer layer.level layer.meaning layer.tradition)
              { current_level := m.y.current_level,
                semantic_field := m.y.semantic_field },
            z := (m.z.diacritics.map (fun d =>
                ({ symbol := d.symbol, name := d.name,
                   position := some d.position } : DiacriticDict))).foldl
              (fun h dd => h.add_diacritic dd.symbol dd.name (dd.position.getD "above"))
              { base_form := m.z.base_form,
                configuration_id := m.z.configuration_id,
                vowels := m.z.vowels },
            metadata := m.metadata }, ?_, rfl, rfl, rfl, rfl, ?_, ?_⟩
  · simp only [Morpheme.to_dict, Morpheme.from_dict, Option.getD_some, buildLayers_map]
  · simp only [Morpheme.coordinates, Width.position, Depth.level, Height.configuration,
      current_level_foldl, configuration_id_foldl]
  · intro c
    rw [hupdate]
    simp only [Morpheme.to_dict, Morpheme.from_dict, Option.getD_some, buildLayers_map]

/-- A successful `RootSpace.add_morpheme` appends its argument, keeps the
root, and certifies the root match. -/
theorem add_morpheme_ok {s : RootSpace} {o : Obj} {s' : RootSpace}
    (h : s.add_morpheme o = .ok s') :
    s'.morphemes = s.morphemes ++ [o] ∧ s'.root = s.root ∧ o.val.root = s.root := by
  by_cases hr : o.val.root = s.root
  · simp only [RootSpace.add_morpheme, hr, ne_eq, not_true_eq_false, if_false,
      Except.ok.injEq] at h
    subst h
    exact ⟨rfl, rfl, hr⟩
  · simp [RootSpace.add_morpheme, hr] at h

/-- The example loop of `analyze_root` preserves the degree condition: a
member's derivation degree is 0 exactly when its stripped form equals the
normalized root, and 1 otherwise. -/
theorem analyzeRootLoop_degrees (display sf normalized : String) :
    ∀ (examples : List (String × String)) (cid : Int) (space space' : RootSpace),
      (∀ o ∈ space.morphemes, o.val.x.derivation_degree =
        if strip_diacritics o.val.form = normalized then 0 else 1) →
      analyzeRootLoop display sf normalized examples cid space = .ok space' →
      ∀ o ∈ space'.morphemes, o.val.x.derivation_degree =
        if strip_diacritics o.val.form = normalized then 0 else 1 := by
  intro examples
  induction examples with
  | nil =>
    intro cid space space' hinv h
    simp only [analyzeRootLoop, Except.ok.injEq] at h
    subst h
    exact hinv
  | cons ex rest ih =>
    intro cid space space' hinv h
    obtain ⟨form_text, gloss⟩ := ex
    simp only [analyzeRootLoop] at h
    rcases hEq : space.add_morpheme
        ⟨(cid + 1).toNat,
          { form := form_text, root := display, language := "ar", gloss := gloss,
            x := { root := display,
                   derivation_degree :=
                     if strip_diacritics form_text = normalized then 0 else 1 },
            y := ({ semantic_field := sf } : Depth).add_layer .LITERAL gloss,
            z := { base_form := strip_diacritics form_text,
                   configuration_id := cid + 1,
                   vowels := extract_diacritics form_text } }⟩
      with e | s1
    · rw [hEq] at h
      cases h
    · rw [hEq] at h
      obtain ⟨hmem, hroot, _⟩ := add_morpheme_ok hEq
      refine ih (cid + 1) s1 space' ?_ h
      intro o ho
      rw [hmem] at ho
      rcases List.mem_append.mp ho with ho | ho
      · exact hinv o ho
      · rcases List.mem_singleton.mp ho with rfl
        rfl

/-- Claim C7: every morpheme produced by `ArabicAnalyzer.analyze_root` has
Width derivation degree 0 exactly when its form with diacritics stripped
equals the normalized root, and 1 otherwise; on the spec's `ك-ت-ب`
dataset the resulting space has exactly 2 members, each with a non-empty
Height vowel sequence. -/
theorem claim_C7_arabic_degrees :
    (∀ (data : RootsData) (root : String) (space : RootSpace),
      ArabicAnalyzer.analyze_root data root = .ok space →
      ∀ o ∈ space.morphemes,
        o.val.x.derivation_degree =
          if strip_diacritics o.val.form = normalizeRoot root then 0 else 1) ∧
    (ArabicAnalyzer.analyze_root ktbData "ك-ت-ب").map
      (fun sp => (sp.morphemes.length,
        sp.morphemes.all (fun o => !o.val.z.vowels.isEmpty))) = .ok (2, true) := by
  constructor
  · intro data root space h
    simp only [ArabicAnalyzer.analyze_root] at h
    exact analyzeRootLoop_degrees (displayRoot root)
      ((((data.find? (fun p => p.1 == displayRoot root)).map Prod.snd).getD {}).semantic_field)
      (normalizeRoot root)
      ((((data.find? (fun p => p.1 == displayRoot root)).map Prod.snd).getD {}).examples)
      0 { root := displayRoot root, language := "ar", morphemes := [] } space
      (by intro o ho; simp at ho) h
  · rfl

/-- Witness for C7 on a one-example dataset, discharging the success
hypothesis concretely. -/
theorem claim_C7_witness :
    raaMorpheme.x.derivation_degree =
      if strip_diacritics raaMorpheme.form = normalizeRoot "ر" then 0 else 1 :=
  claim_C7_arabic_degrees.1 raaData "ر" raaSpace rfl ⟨1, raaMorpheme⟩
    (by simp [raaSpace])

/-- The executable squared-distance test coincides with the square-root
comparison `math.sqrt(d) <= radius` the Python code performs. -/
theorem inRadius_iff_sqrt (d : Int) (r : ℚ) :
    inRadius d r = true ↔ Real.sqrt (d : ℝ) ≤ (r : ℝ) := by
  rw [inRadius, decide_eq_true_eq, Real.sqrt_le_iff]
  constructor
  · rintro ⟨h1, h2⟩
    exact ⟨by exact_mod_cast h1, by exact_mod_cast h2⟩
  · rintro ⟨h1, h2⟩
    exact ⟨by exact_mod_cast h1, by exact_mod_cast h2⟩

/-- The members selected by `get_morphemes_in_range` are exactly those at
real Euclidean distance at most the radius from the center. -/
theorem get_morphemes_in_range_count (s : MorphemeSpace)
    (center : Int × Int × Int) (r : ℚ) :
    (s.get_morphemes_in_range center r).length =
      spec_countWithinRadius s center (r : ℝ) := by
  unfold MorphemeSpace.get_morphemes_in_range spec_countWithinRadius
  congr 1
  apply List.filter_congr
  intro o _
  have hiff := inRadius_iff_sqrt (coordDistSq o.val.coordinates center) r
  rcases hb : inRadius (coordDistSq o.val.coordinates center) r with _ | _
  · rw [hb] at hiff
    have hnp : ¬ Real.sqrt ((coordDistSq o.val.coordinates center : Int) : ℝ) ≤ (r : ℝ) := by
      intro hp
      simpa using hiff.mpr hp
    exact (decide_eq_false hnp).symm
  · exact (decide_eq_true (hiff.mp hb)).symm

/-- Claim C9: `compute_density` returns 0 for a non-positive radius (the
division is never reached), and otherwise divides the number of members
whose Euclidean distance to the center is at most the radius (inclusive)
by the sphere volume `(4/3)·π·r³`. -/
theorem claim_C9_density :
    ∀ (s : MorphemeSpace) (c : Int × Int × Int) (r : ℚ),
      (r ≤ 0 → s.compute_density c r = 0) ∧
      (0 < r → s.compute_density c r =
        (spec_countWithinRadius s c (r : ℝ) : ℝ) /
          ((4 / 3) * Real.pi * (r : ℝ) ^ 3)) := by
  intro s c r
  constructor
  · intro h
    simp [MorphemeSpace.compute_density, h]
  · intro h
    rw [MorphemeSpace.compute_density, if_neg (not_le.mpr h),
      get_morphemes_in_range_count]

/-- Witness for C9 at a concrete empty space with radii −1 and 1. -/
theorem claim_C9_witness :
    ((-1 : ℚ) ≤ 0 ∧
      MorphemeSpace.compute_density {} (0, 0, 0) (-1) = 0) ∧
    (0 < (1 : ℚ) ∧
      MorphemeSpace.compute_density {} (0, 0, 0) 1 =
        (spec_countWithinRadius {} (0, 0, 0) ((1 : ℚ) : ℝ) : ℝ) /
          ((4 / 3) * Real.pi * (((1 : ℚ) : ℝ)) ^ 3)) :=
  ⟨⟨by norm_num, (claim_C9_density {} (0, 0, 0) (-1)).1 (by norm_num)⟩,
   ⟨by norm_num, (claim_C9_density {} (0, 0, 0) 1).2 (by norm_num)⟩⟩

/-- Inserting an entry into a list places it before every entry it is not
strictly greater than, so restricting to one key value either prepends the
entry (when it has that key) or leaves the restriction unchanged. -/
theorem orderedInsert_filter_key (d : Int) (a : Obj × Int) (L : List (Obj × Int)) :
    (L.orderedInsert distKeyLe a).filter (fun p => p.2 == d) =
      if a.2 = d then a :: L.filter (fun p => p.2 == d)
      else L.filter (fun p => p.2 == d) := by
  induction L with
  | nil =>
    by_cases had : a.2 = d <;> simp [List.orderedInsert, had]
  | cons b L ih =>
    simp only [List.orderedInsert]
    by_cases hab : distKeyLe a b
    · rw [if_pos hab]
      by_cases had : a.2 = d <;> by_cases hbd : b.2 = d <;> simp [had, hbd]
    · rw [if_neg hab]
      have hba : b.2 < a.2 := lt_of_not_le hab
      by_cases had : a.2 = d
      · have hbd : b.2 ≠ d := by
          subst had; exact ne_of_lt hba
        simp [had, hbd, ih]
      · by_cases hbd : b.2 = d <;> simp [had, hbd, ih]

/-- The insertion sort used by `find_nearest` is stable: restricting the
sorted list to the entries with one given key value recovers exactly the
original (insertion-ordered) sequence of those entries. -/
theorem insertionSort_filter_key (d : Int) (l : List (Obj × Int)) :
    (l.insertionSort distKeyLe).filter (fun p => p.2 == d) =
      l.filter (fun p => p.2 == d) := by
  induction l with
  | nil => rfl
  | cons a l ih =>
    show ((l.insertionSort distKeyLe).orderedInsert distKeyLe a).filter
        (fun p => p.2 == d) = (a :: l).filter (fun p => p.2 == d)
    rw [orderedInsert_filter_key, ih]
    by_cases had : a.2 = d <;> simp [had]

/-- Splitting a member list by the identity filter of `find_nearest`:
non-query members plus occurrences of the query identity make up the whole
list. -/
theorem filter_bne_length (l : List Obj) (i : Nat) :
    (l.filter (fun o => o.oid != i)).length + l.countP (fun o => o.oid == i) =
      l.length := by
  induction l with
  | nil => simp
  | cons o l ih =>
    by_cases h : o.oid = i <;>
      simp [List.filter_cons, List.countP_cons, h] <;> omega

/-- Claim C4 (amended): when the query object occurs at most once among
the `n` members and `n ≥ k+1`, `find_nearest` returns exactly `k` entries;
they exclude the query by identity only, carry the query's distance as
key, are sorted by non-decreasing Euclidean distance to the query, entries
at any fixed distance appear in original insertion order (a prefix of the
non-query members at that distance), and with `k = n` every non-query
member appears — members sharing the query's coordinates included. -/
theorem claim_C4_find_nearest :
    ∀ (s : MorphemeSpace) (q : Obj) (k : ℕ),
      k + 1 ≤ s.morphemes.length →
      s.morphemes.countP (fun o => o.oid == q.oid) ≤ 1 →
      ((s.find_nearest q k).length = k) ∧
      ((s.find_nearest q k).Pairwise (fun a b =>
        Morpheme.distance_to q.val a.1.val ≤ Morpheme.distance_to q.val b.1.val)) ∧
      (∀ p ∈ s.find_nearest q k, p.1.oid ≠ q.oid ∧ p.2 = q.val.distSq p.1.val) ∧
      (∀ d : Int,
        ((s.find_nearest q k).filter (fun p => p.2 == d)).map Prod.fst <+:
          s.morphemes.filter (fun o => q.val.distSq o.val == d && o.oid != q.oid)) ∧
      (∀ o ∈ s.morphemes, o.oid ≠ q.oid →
        o ∈ (s.find_nearest q s.morphemes.length).map Prod.fst) := by
  intro s q k hk hdup
  have hfn : ∀ j : ℕ, s.find_nearest q j =
      (((s.morphemes.filter (fun o => o.oid != q.oid)).map
        (fun o => (o, q.val.distSq o.val))).insertionSort distKeyLe).take j :=
    fun j => rfl
  have hcount := filter_bne_length s.morphemes q.oid
  have hclen : k ≤ ((s.morphemes.filter (fun o => o.oid != q.oid)).map
      (fun o => (o, q.val.distSq o.val))).length := by
    rw [List.length_map]
    omega
  have hkey : ∀ p ∈ s.find_nearest q k, p.1.oid ≠ q.oid ∧ p.2 = q.val.distSq p.1.val := by
    intro p hp
    rw [hfn] at hp
    have hp2 := List.take_subset _ _ hp
    have hp3 := (List.mem_insertionSort distKeyLe).mp hp2
    obtain ⟨o, ho, rfl⟩ := List.mem_map.mp hp3
    have := (List.mem_filter.mp ho).2
    exact ⟨by simpa using this, rfl⟩
  refine ⟨?_, ?_, hkey, ?_, ?_⟩
  · rw [hfn, List.length_take, List.length_insertionSort]
    exact Nat.min_eq_left hclen
  · have hsorted := List.sorted_insertionSort distKeyLe
      ((s.morphemes.filter (fun o => o.oid != q.oid)).map
        (fun o => (o, q.val.distSq o.val)))
    have htake : (s.find_nearest q k).Pairwise distKeyLe := by
      rw [hfn]
      exact List.Pairwise.sublist (List.take_sublist _ _) hsorted
    refine htake.imp_of_mem ?_
    intro a b ha hb hr
    have hada := (hkey a ha).2
    have hadb := (hkey b hb).2
    show Real.sqrt ((q.val.distSq a.1.val : Int) : ℝ) ≤
      Real.sqrt ((q.val.distSq b.1.val : Int) : ℝ)
    rw [← hada, ← hadb]
    exact Real.sqrt_le_sqrt (by exact_mod_cast hr)
  · intro d
    rw [hfn]
    have hpfx := List.take_prefix k
      (((s.morphemes.filter (fun o => o.oid != q.oid)).map
        (fun o => (o, q.val.distSq o.val))).insertionSort distKeyLe)
    have h1 := hpfx.filter (fun p => p.2 == d)
    rw [insertionSort_filter_key] at h1
    have h2 := h1.map Prod.fst
    rw [List.filter_map, List.map_map] at h2
    have hid : (Prod.fst ∘ fun o : Obj => (o, q.val.distSq o.val)) = id := rfl
    rw [hid, List.map_id, List.filter_filter] at h2
    have hcomp : ((fun p : Obj × Int => p.2 == d) ∘ fun o : Obj => (o, q.val.distSq o.val)) =
        fun o : Obj => q.val.distSq o.val == d := rfl
    rw [hcomp] at h2
    exact h2
  · intro o ho hneq
    have hcand : o ∈ s.morphemes.filter (fun o => o.oid != q.oid) :=
      List.mem_filter.mpr ⟨ho, by simpa using hneq⟩
    have hd := List.mem_map_of_mem (fun o => (o, q.val.distSq o.val)) hcand
    have hs := (List.mem_insertionSort distKeyLe).mpr hd
    have hlen : (((s.morphemes.filter (fun o => o.oid != q.oid)).map
        (fun o => (o, q.val.distSq o.val))).insertionSort distKeyLe).length ≤
        s.morphemes.length := by
      rw [List.length_insertionSort, List.length_map]
      exact List.length_filter_le _ _
    rw [hfn, List.take_of_length_le hlen]
    exact List.mem_map_of_mem Prod.fst hs

/-- Claim C4 counterexample: a space holding the same object twice (the
result of adding one object two times) has `n = 2` members, yet
`find_nearest` on that object with `k = 1` returns no entry at all, since
the identity filter removes both occurrences. -/
theorem claim_C4_counterexample :
    dupSpace.morphemes.length = 1 + 1 ∧
    (dupSpace.find_nearest dupQuery 1).length = 0 :=
  ⟨rfl, rfl⟩

/-- Witness for C4 on a two-member space with distinct identities. -/
theorem claim_C4_witness :
    1 + 1 ≤ twoSpace.morphemes.length ∧
    twoSpace.morphemes.countP (fun o => o.oid == twoQuery.oid) ≤ 1 ∧
    (twoSpace.find_nearest twoQuery 1).length = 1 :=
  ⟨by decide, by decide,
    (claim_C4_find_nearest twoSpace twoQuery 1 (by decide) (by decide)).1⟩

end TTM
